import Mathlib

/-!
# Verification of the caddy-cron-matcher window-membership core

Shallow embedding of `cronmatcher.go` (package `cronmatcher`).  Instants
are modelled as `Int` (the code compares `time.Time` values only with
`Equal`, `After`, `Before`, i.e. a linear order).  The external recurrence
evaluator (the `gronx` library) is out of scope of the repository and is
modelled as an abstract record of its two operations, per the spec's
collaborator contract; logging calls are elided (they do not influence any
returned value).
-/

namespace CaddyCron

/-- Errors of the external recurrence evaluator.  `Match` never inspects
the payload of an evaluator error (it only logs it and skips the pair),
so a single abstract constructor suffices. -/
inductive EvalError where
  | evalFailed
deriving DecidableEq

/-- Modelled from the spec: the external Recurrence Evaluator contract
(`gronx.PrevTickBefore` and `gronx.NextTickAfter`, which are not part of
this repository).  `prevTickBefore rule ref incl` is the latest matching
instant at-or-before (`incl = true`) or strictly before `ref`;
`nextTickAfter rule ref incl` is the earliest matching instant at-or-after
(`incl = true`) or strictly after `ref`. -/
structure Evaluator where
  prevTickBefore : String → Int → Bool → Except EvalError Int
  nextTickAfter : String → Int → Bool → Except EvalError Int

/-- The `CronMatcher` struct of `cronmatcher.go`: the two slices of cron
expressions.  The `logger` field is elided (diagnostics only). -/
structure CronMatcher where
  EnableAt : List String
  DisableAt : List String
deriving DecidableEq

/-- The configuration-time errors the code can produce, one constructor
per `fmt.Errorf` site: the emptiness check and the cardinality check of
`Provision`, and the two per-rule format errors of `Validate` (each
carrying the offending index and rule). -/
inductive ConfigError where
  | emptyConfig
  | cardinalityMismatch
  | invalidEnableAt (index : Nat) (rule : String)
  | invalidDisableAt (index : Nat) (rule : String)
deriving DecidableEq

/-- `Provision` from `cronmatcher.go` (logger setup and per-pair info
logging elided): rejects a configuration where either slice is empty,
then rejects unequal slice lengths. -/
def Provision (cm : CronMatcher) : Except ConfigError Unit :=
  if cm.EnableAt.length == 0 || cm.DisableAt.length == 0 then
    Except.error ConfigError.emptyConfig
  else if cm.EnableAt.length != cm.DisableAt.length then
    Except.error ConfigError.cardinalityMismatch
  else
    Except.ok ()

/-- The indexed validation loop shared by the two `for i, rule := range`
loops of `Validate`: returns the error `mk i rule` at the first rule the
syntax check `isValid` (modelling `gronx.IsValid`) rejects. -/
def validateFrom (isValid : String → Bool) (mk : Nat → String → ConfigError) :
    Nat → List String → Except ConfigError Unit
  | _, [] => Except.ok ()
  | i, r :: rs =>
    if isValid r then validateFrom isValid mk (i + 1) rs
    else Except.error (mk i r)

/-- `Validate` from `cronmatcher.go`, parameterised by the external syntax
check `isValid` (`gronx.IsValid`): first every `EnableAt` rule, then every
`DisableAt` rule. -/
def Validate (isValid : String → Bool) (cm : CronMatcher) : Except ConfigError Unit :=
  match validateFrom isValid ConfigError.invalidEnableAt 0 cm.EnableAt with
  | Except.error e => Except.error e
  | Except.ok _ => validateFrom isValid ConfigError.invalidDisableAt 0 cm.DisableAt

/-- The single error `UnmarshalCaddyfile` can produce (a `cron` block
whose argument count is not exactly 2). -/
inductive CaddyfileError where
  | wrongArgCount
deriving DecidableEq

/-- `UnmarshalCaddyfile` from `cronmatcher.go`.  The dispenser is modelled
as the list of argument lists of the successive `cron` directives
(`d.Next` / `d.RemainingArgs`).  A block with exactly two arguments
appends them to `EnableAt` and `DisableAt`; any other arity aborts with
an error.  (`args` of length 2 is destructured; this is the Go
`len(args) == 2` test followed by `args[0]`, `args[1]`.) -/
def UnmarshalCaddyfile (cm : CronMatcher) : List (List String) → Except CaddyfileError CronMatcher
  | [] => Except.ok cm
  | args :: rest =>
    match args with
    | [a, b] =>
      UnmarshalCaddyfile ⟨cm.EnableAt ++ [a], cm.DisableAt ++ [b]⟩ rest
    | _ => Except.error CaddyfileError.wrongArgCount

/-- The membership condition at line 154 of `cronmatcher.go`:
`now.Equal(lastEnable) || (now.After(lastEnable) && now.Before(nextDisable))`. -/
def membershipTest (lastEnable nextDisable now : Int) : Bool :=
  now == lastEnable || (decide (lastEnable < now) && decide (now < nextDisable))

/-- One iteration of the `Match` loop body for the pair
`(enableAt, disableAt)`: `gronx.PrevTickBefore(enableAt, now, true)`,
on success `gronx.NextTickAfter(disableAt, lastEnable, false)` anchored at
`lastEnable`, on success the membership test; an error from either call is
logged (elided) and the pair reports no match (`continue`). -/
def pairCheck (ev : Evaluator) (enableAt disableAt : String) (now : Int) : Bool :=
  match ev.prevTickBefore enableAt now true with
  | Except.error _ => false
  | Except.ok lastEnable =>
    match ev.nextTickAfter disableAt lastEnable false with
    | Except.error _ => false
    | Except.ok nextDisable => membershipTest lastEnable nextDisable now

/-- The `for i := range cm.EnableAt` loop of `Match`: return `true` at the
first pair whose check succeeds, `false` once the pairs are exhausted. -/
def matchPairs (ev : Evaluator) (now : Int) : List (String × String) → Bool
  | [] => false
  | (e, d) :: rest =>
    if pairCheck ev e d now then true else matchPairs ev now rest

/-- `Match` from `cronmatcher.go`.  The request argument `r` is of an
arbitrary type: the Go body never reads `r`.  The current instant `now`
is an explicit parameter, mirroring the injected `nowFunc`.  The loop
pairs `cm.EnableAt[i]` with `cm.DisableAt[i]`, i.e. it walks the zip of
the two slices (identical to the Go loop whenever the slices have equal
length, which `Provision` guarantees). -/
def CronMatcher.Match {α : Type} (cm : CronMatcher) (ev : Evaluator) (r : α) (now : Int) : Bool :=
  matchPairs ev now (cm.EnableAt.zip cm.DisableAt)

/-- Explicit state-threading embedding of the `Match` method on its
pointer receiver: the Go body contains no assignment to any field of
`cm`, so the receiver state after the call is the receiver state before
it. -/
def CronMatcher.MatchSt {α : Type} (cm : CronMatcher) (ev : Evaluator) (r : α) (now : Int) :
    Bool × CronMatcher :=
  (cm.Match ev r now, cm)

/-- Modelled from the spec: a concrete recurrence evaluator for a rule
language whose rules denote finite sets of ticks, satisfying the §4.1
contract (`previousMatchAtOrBefore` = latest tick at-or-before/ before the
reference, `nextMatchAfter` = earliest tick after/at-or-after it, error
when no such tick exists).  Used to instantiate theorems about the core,
which never looks inside the evaluator. -/
def listPrevTick (ticks : List Int) (ref : Int) (incl : Bool) : Except EvalError Int :=
  match ticks.filter (fun t => if incl then decide (t ≤ ref) else decide (t < ref)) with
  | [] => Except.error EvalError.evalFailed
  | t :: ts => Except.ok (ts.foldl max t)

/-- Modelled from the spec: the forward direction of the same finite-tick
evaluator. -/
def listNextTick (ticks : List Int) (ref : Int) (incl : Bool) : Except EvalError Int :=
  match ticks.filter (fun t => if incl then decide (ref ≤ t) else decide (ref < t)) with
  | [] => Except.error EvalError.evalFailed
  | t :: ts => Except.ok (ts.foldl min t)

/-- Package the finite-tick operations as an `Evaluator`, given the
denotation `ticks` of each rule string. -/
def tickEvaluator (ticks : String → List Int) : Evaluator :=
  ⟨fun rule ref incl => listPrevTick (ticks rule) ref incl,
   fun rule ref incl => listNextTick (ticks rule) ref incl⟩

/-- An evaluator with a single window: the rule "start" matches exactly at
`T0` and every other rule exactly at `T1`. -/
def windowEvaluator (T0 T1 : Int) : Evaluator :=
  tickEvaluator (fun r => if r == "start" then [T0] else [T1])

/-- Rule denotation with one unevaluable rule: the rule "bad" has no
ticks (the evaluator fails on it), every other rule ticks at 10 and 20. -/
def failTicks : String → List Int :=
  fun r => if r == "bad" then [] else [10, 20]

/-- A concrete syntax check rejecting exactly the empty rule string, used
to instantiate theorems that are parametric in the external
`gronx.IsValid`. -/
def nonEmptyCheck : String → Bool :=
  fun r => !(r == "")

end CaddyCron

namespace CaddyCron

/-! ## Helper lemmas -/

/-- The loop with a single pair reduces to that pair's check. -/
theorem matchPairs_singleton (ev : Evaluator) (e d : String) (now : Int) :
    matchPairs ev now [(e, d)] = pairCheck ev e d now := by
  cases hc : pairCheck ev e d now <;> simp [matchPairs, hc]

/-- Under the `windowEvaluator`, the pair ("start", "end") checks exactly
the closed-open interval from `T0` to `T1`. -/
theorem windowEvaluator_pairCheck (T0 T1 t : Int) (h : T0 < T1) :
    pairCheck (windowEvaluator T0 T1) "start" "end" t = decide (T0 ≤ t ∧ t < T1) := by
  by_cases hle : T0 ≤ t
  · simp only [pairCheck, windowEvaluator, tickEvaluator, listPrevTick, listNextTick,
      membershipTest, List.filter]
    simp [hle, h, membershipTest]
    rcases eq_or_lt_of_le hle with he | hlt
    · subst he
      simp [h]
    · simp [hlt, hlt.ne']
  · simp only [pairCheck, windowEvaluator, tickEvaluator, listPrevTick, listNextTick,
      membershipTest, List.filter]
    simp [hle]

/-! ## Claim theorems -/

/-- C1: for a configured pair, when both evaluator calls succeed — the
previous start tick at-or-before `now` (inclusive) yielding `lastStart`,
and the next end tick strictly after `lastStart` (anchored at `lastStart`,
not at `now`) yielding `nextEnd` — the pair reports a match iff
`now = lastStart` or (`now > lastStart` and `now < nextEnd`). -/
theorem pairCheck_matches_iff_window (ev : Evaluator) (e d : String)
    (now lastStart nextEnd : Int)
    (h1 : ev.prevTickBefore e now true = Except.ok lastStart)
    (h2 : ev.nextTickAfter d lastStart false = Except.ok nextEnd) :
    pairCheck ev e d now = true ↔
      now = lastStart ∨ (lastStart < now ∧ now < nextEnd) := by
  simp [pairCheck, h1, h2, membershipTest]

/-- Witness for C1 at a concrete evaluator whose every rule ticks at 10
and 20: both calls succeed and the membership equivalence holds at 12. -/
theorem pairCheck_matches_iff_window_witness :
    (tickEvaluator (fun _ => [10, 20])).prevTickBefore "e" 12 true = Except.ok 10 ∧
    (tickEvaluator (fun _ => [10, 20])).nextTickAfter "d" 10 false = Except.ok 20 ∧
    (pairCheck (tickEvaluator (fun _ => [10, 20])) "e" "d" 12 = true ↔
      (12 : Int) = 10 ∨ ((10 : Int) < 12 ∧ (12 : Int) < 20)) :=
  ⟨rfl, rfl,
   pairCheck_matches_iff_window (tickEvaluator (fun _ => [10, 20])) "e" "d" 12 10 20 rfl rfl⟩

/-- C5: given `lastStart < nextEnd` (which the strict-after anchoring of
the end-rule search guarantees), the disjunctive membership test of the
code is the closed-open interval test `lastStart ≤ now < nextEnd`. -/
theorem membershipTest_iff_closed_open (lastStart nextEnd now : Int)
    (h : lastStart < nextEnd) :
    membershipTest lastStart nextEnd now = true ↔ (lastStart ≤ now ∧ now < nextEnd) := by
  simp [membershipTest]
  omega

/-- Witness for C5 at `lastStart = 10`, `nextEnd = 20`, `now = 15`. -/
theorem membershipTest_iff_closed_open_witness :
    (10 : Int) < 20 ∧
    (membershipTest 10 20 15 = true ↔ ((10 : Int) ≤ 15 ∧ (15 : Int) < 20)) :=
  ⟨by decide, membershipTest_iff_closed_open 10 20 15 (by decide)⟩

/-- C2: for a single window whose start rule matches exactly at `T0` and
whose end rule matches exactly at `T1 > T0` (no other matches), the match
is true at `T0` (start inclusive), false at `T1` (end exclusive), true
strictly between, and false before `T0`. -/
theorem window_boundary_inclusivity {α : Type} (r : α) (T0 T1 t : Int) (h : T0 < T1) :
    CronMatcher.Match ⟨["start"], ["end"]⟩ (windowEvaluator T0 T1) r T0 = true ∧
    CronMatcher.Match ⟨["start"], ["end"]⟩ (windowEvaluator T0 T1) r T1 = false ∧
    (T0 < t → t < T1 → CronMatcher.Match ⟨["start"], ["end"]⟩ (windowEvaluator T0 T1) r t = true) ∧
    (t < T0 → CronMatcher.Match ⟨["start"], ["end"]⟩ (windowEvaluator T0 T1) r t = false) := by
  have key : ∀ x : Int, pairCheck (windowEvaluator T0 T1) "start" "end" x
      = decide (T0 ≤ x ∧ x < T1) := fun x => windowEvaluator_pairCheck T0 T1 x h
  refine ⟨?_, ?_, fun h1 h2 => ?_, fun h1 => ?_⟩ <;>
    simp [CronMatcher.Match, List.zip, matchPairs_singleton, key] <;> omega

/-- Witness for C2 with `T0 = 0`, `T1 = 100`, sampling `t = 50` inside and
`t = -5` before the window. -/
theorem window_boundary_inclusivity_witness :
    CronMatcher.Match ⟨["start"], ["end"]⟩ (windowEvaluator 0 100) () 0 = true ∧
    CronMatcher.Match ⟨["start"], ["end"]⟩ (windowEvaluator 0 100) () 100 = false ∧
    CronMatcher.Match ⟨["start"], ["end"]⟩ (windowEvaluator 0 100) () 50 = true ∧
    CronMatcher.Match ⟨["start"], ["end"]⟩ (windowEvaluator 0 100) () (-5) = false :=
  ⟨(window_boundary_inclusivity () 0 100 50 (by decide)).1,
   (window_boundary_inclusivity () 0 100 50 (by decide)).2.1,
   (window_boundary_inclusivity () 0 100 50 (by decide)).2.2.1 (by decide) (by decide),
   (window_boundary_inclusivity () 0 100 (-5) (by decide)).2.2.2 (by decide)⟩

/-- Unfolding the short-circuiting loop: it returns exactly the
disjunction (`List.any`) of the per-pair checks. -/
theorem matchPairs_eq_any (ev : Evaluator) (now : Int) (ps : List (String × String)) :
    matchPairs ev now ps = ps.any (fun p => pairCheck ev p.1 p.2 now) := by
  induction ps with
  | nil => rfl
  | cons p rest ih =>
    obtain ⟨e, d⟩ := p
    cases hc : pairCheck ev e d now <;> simp [matchPairs, hc, ih]

/-- `List.any` is invariant under permutation of the list. -/
theorem any_congr_perm {b : Type} (f : b → Bool) (p1 p2 : List b) (h : p1.Perm p2) :
    p1.any f = p2.any f := by
  cases hb : p2.any f
  · rw [List.any_eq_false] at hb ⊢
    intro x hx
    exact hb x (h.mem_iff.mp hx)
  · rw [List.any_eq_true] at hb ⊢
    obtain ⟨x, hx, hfx⟩ := hb
    exact ⟨x, h.mem_iff.mpr hx, hfx⟩

/-- C3: `Match` equals the OR (`List.any`) of the per-pair membership
checks over the zipped rule slices, and running the short-circuiting loop
on any permutation of the pairs yields the same boolean. -/
theorem match_or_semantics {a : Type} (cm : CronMatcher) (ev : Evaluator) (r : a)
    (now : Int) (perm : List (String × String))
    (h : (cm.EnableAt.zip cm.DisableAt).Perm perm) :
    cm.Match ev r now
      = (cm.EnableAt.zip cm.DisableAt).any (fun p => pairCheck ev p.1 p.2 now) ∧
    cm.Match ev r now = matchPairs ev now perm := by
  refine ⟨matchPairs_eq_any ev now _, ?_⟩
  rw [CronMatcher.Match, matchPairs_eq_any, matchPairs_eq_any]
  exact any_congr_perm _ _ _ h

/-- Witness for C3: a two-pair configuration, its zip swapped, evaluated
at instant 12 under a finite-tick evaluator. -/
theorem match_or_semantics_witness :
    CronMatcher.Match ⟨["a", "b"], ["c", "d"]⟩ (tickEvaluator (fun _ => [10, 20])) () 12
      = ((["a", "b"] : List String).zip ["c", "d"]).any
          (fun p => pairCheck (tickEvaluator (fun _ => [10, 20])) p.1 p.2 12) ∧
    CronMatcher.Match ⟨["a", "b"], ["c", "d"]⟩ (tickEvaluator (fun _ => [10, 20])) () 12
      = matchPairs (tickEvaluator (fun _ => [10, 20])) 12 [("b", "d"), ("a", "c")] :=
  match_or_semantics ⟨["a", "b"], ["c", "d"]⟩ (tickEvaluator (fun _ => [10, 20])) () 12
    [("b", "d"), ("a", "c")] (List.Perm.swap _ _ _)

/-- C4: a pair on which either evaluator call fails is skipped — the
result with the failing pair in front equals the result on the remaining
pairs, so the error never escapes and the other windows still match. -/
theorem match_skips_failing_pair {a : Type} (ev : Evaluator) (r : a) (e d : String)
    (es ds : List String) (now : Int)
    (h : ev.prevTickBefore e now true = Except.error EvalError.evalFailed ∨
      ∃ ls, ev.prevTickBefore e now true = Except.ok ls ∧
        ev.nextTickAfter d ls false = Except.error EvalError.evalFailed) :
    (⟨e :: es, d :: ds⟩ : CronMatcher).Match ev r now
      = (⟨es, ds⟩ : CronMatcher).Match ev r now := by
  have hc : pairCheck ev e d now = false := by
    rcases h with h1 | ⟨ls, h1, h2⟩
    · simp [pairCheck, h1]
    · simp [pairCheck, h1, h2]
  simp [CronMatcher.Match, List.zip, List.zip_cons_cons, matchPairs, hc]

/-- Witness for C4: the set with the failing pair ("bad", "x") in front
of the well-formed pair ("g", "h") behaves like the well-formed pair
alone, and still reports true at instant 12 inside its window. -/
theorem match_skips_failing_pair_witness :
    (tickEvaluator failTicks).prevTickBefore "bad" 12 true
      = Except.error EvalError.evalFailed ∧
    (⟨["bad", "g"], ["x", "h"]⟩ : CronMatcher).Match (tickEvaluator failTicks) () 12
      = (⟨["g"], ["h"]⟩ : CronMatcher).Match (tickEvaluator failTicks) () 12 ∧
    (⟨["bad", "g"], ["x", "h"]⟩ : CronMatcher).Match (tickEvaluator failTicks) () 12 = true :=
  ⟨rfl,
   match_skips_failing_pair (tickEvaluator failTicks) () "bad" "x" ["g"] ["h"] 12 (Or.inl rfl),
   rfl⟩

/-- C9: the boolean result of `Match` is fully determined by the
configuration, the evaluator and the instant: the request argument (of
any type) never influences it, and the explicit state-threading of the
method leaves the matcher's configured rule slices unchanged by every
query. -/
theorem match_deterministic_and_pure {a b : Type} (cm : CronMatcher) (ev : Evaluator)
    (r : a) (r2 : b) (now : Int) :
    cm.Match ev r now = cm.Match ev r2 now ∧
    (cm.MatchSt ev r now).1 = cm.Match ev r now ∧
    (cm.MatchSt ev r now).2 = cm :=
  ⟨rfl, rfl, rfl⟩

/-- `Provision` succeeds exactly on configurations with two non-empty
slices of equal length. -/
theorem provision_ok_iff (cm : CronMatcher) :
    Provision cm = Except.ok () ↔
      cm.EnableAt ≠ [] ∧ cm.DisableAt ≠ [] ∧ cm.EnableAt.length = cm.DisableAt.length := by
  rcases cm with ⟨ea, da⟩
  rcases ea with _ | ⟨e, ea⟩ <;> rcases da with _ | ⟨d, da⟩ <;>
    simp [Provision]

/-- C7: `Provision` fails (with the dedicated errors) when either rule
slice is empty and when the slice lengths differ, and conversely it only
succeeds on a non-empty configuration with matching cardinality — so no
query is served with an empty or mismatched configuration. -/
theorem provision_checks (cm : CronMatcher) :
    (cm.EnableAt = [] ∨ cm.DisableAt = [] → Provision cm = Except.error ConfigError.emptyConfig) ∧
    (cm.EnableAt ≠ [] → cm.DisableAt ≠ [] → cm.EnableAt.length ≠ cm.DisableAt.length →
      Provision cm = Except.error ConfigError.cardinalityMismatch) ∧
    (Provision cm = Except.ok () →
      cm.EnableAt ≠ [] ∧ cm.DisableAt ≠ [] ∧ cm.EnableAt.length = cm.DisableAt.length) := by
  refine ⟨?_, ?_, (provision_ok_iff cm).mp⟩
  · rintro (h | h) <;> simp [Provision, h]
  · intro h1 h2 h3
    have e1 : (cm.EnableAt.length == 0) = false := by
      simp [List.length_eq_zero, h1]
    have e2 : (cm.DisableAt.length == 0) = false := by
      simp [List.length_eq_zero, h2]
    have e3 : (cm.EnableAt.length != cm.DisableAt.length) = true := by
      simp [h3]
    simp [Provision, e1, e2, e3]

/-- Witness for C7: the empty-slice rejection, the cardinality rejection,
and a successful provision, each at a concrete configuration. -/
theorem provision_checks_witness :
    Provision ⟨[], ["x"]⟩ = Except.error ConfigError.emptyConfig ∧
    Provision ⟨["a"], ["b", "c"]⟩ = Except.error ConfigError.cardinalityMismatch ∧
    ((["a"] : List String) ≠ [] ∧ (["b"] : List String) ≠ [] ∧
      (["a"] : List String).length = (["b"] : List String).length) :=
  ⟨(provision_checks ⟨[], ["x"]⟩).1 (Or.inl rfl),
   (provision_checks ⟨["a"], ["b", "c"]⟩).2.1 (by simp) (by simp) (by decide),
   (provision_checks ⟨["a"], ["b"]⟩).2.2 rfl⟩

/-- The indexed validation loop succeeds exactly when every rule passes
the syntax check. -/
theorem validateFrom_ok_iff (v : String → Bool) (mk : Nat → String → ConfigError)
    (i : Nat) (rs : List String) :
    validateFrom v mk i rs = Except.ok () ↔ ∀ r ∈ rs, v r = true := by
  induction rs generalizing i with
  | nil => simp [validateFrom]
  | cons r rest ih =>
    by_cases hv : v r <;> simp [validateFrom, hv, ih]

/-- An error of the indexed validation loop carries the position and the
text of an offending rule. -/
theorem validateFrom_error_spec (v : String → Bool) (mk : Nat → String → ConfigError)
    (i : Nat) (rs : List String) (e : ConfigError)
    (h : validateFrom v mk i rs = Except.error e) :
    ∃ j r, e = mk (i + j) r ∧ rs[j]? = some r ∧ v r = false := by
  induction rs generalizing i with
  | nil => simp [validateFrom] at h
  | cons r rest ih =>
    by_cases hv : v r
    · simp only [validateFrom, hv, if_true] at h
      obtain ⟨j, rr, h1, h2, h3⟩ := ih (i + 1) h
      refine ⟨j + 1, rr, ?_, by simpa using h2, h3⟩
      rw [h1]
      congr 1
      omega
    · simp only [validateFrom, hv, if_false, Bool.false_eq_true] at h
      obtain rfl : e = mk i r := by
        injection h with h
        exact h.symm
      exact ⟨0, r, by simp, by simp, by simp [hv]⟩

/-- Any error of `Validate` is one of the two invalid-format errors and
names an actually offending index and rule. -/
theorem validate_error_spec (isValid : String → Bool) (cm : CronMatcher) (e : ConfigError)
    (h : Validate isValid cm = Except.error e) :
    (∃ i r, e = ConfigError.invalidEnableAt i r ∧
      cm.EnableAt[i]? = some r ∧ isValid r = false) ∨
    (∃ i r, e = ConfigError.invalidDisableAt i r ∧
      cm.DisableAt[i]? = some r ∧ isValid r = false) := by
  unfold Validate at h
  cases h1 : validateFrom isValid ConfigError.invalidEnableAt 0 cm.EnableAt with
  | error e1 =>
    rw [h1] at h
    injection h with h
    subst h
    left
    obtain ⟨j, r, hj, hget, hval⟩ :=
      validateFrom_error_spec isValid ConfigError.invalidEnableAt 0 cm.EnableAt e1 h1
    exact ⟨j, r, by simpa using hj, hget, hval⟩
  | ok u =>
    cases u
    rw [h1] at h
    right
    obtain ⟨j, r, hj, hget, hval⟩ :=
      validateFrom_error_spec isValid ConfigError.invalidDisableAt 0 cm.DisableAt e h
    exact ⟨j, r, by simpa using hj, hget, hval⟩

/-- `Validate` succeeds exactly when every rule of both slices passes the
syntax check. -/
theorem validate_ok_iff (isValid : String → Bool) (cm : CronMatcher) :
    Validate isValid cm = Except.ok () ↔
      (∀ r ∈ cm.EnableAt, isValid r = true) ∧ (∀ r ∈ cm.DisableAt, isValid r = true) := by
  cases h1 : validateFrom isValid ConfigError.invalidEnableAt 0 cm.EnableAt with
  | error e1 =>
    simp only [Validate, h1]
    constructor
    · intro he
      cases he
    · rintro ⟨hall, _⟩
      rw [(validateFrom_ok_iff isValid ConfigError.invalidEnableAt 0 cm.EnableAt).mpr hall] at h1
      cases h1
  | ok u =>
    cases u
    simp only [Validate, h1]
    rw [validateFrom_ok_iff]
    have hall := (validateFrom_ok_iff isValid ConfigError.invalidEnableAt 0 cm.EnableAt).mp h1
    constructor
    · intro hd
      exact ⟨hall, hd⟩
    · rintro ⟨_, hd⟩
      exact hd

/-- C8: `Validate` returns an error iff some rule fails the syntax check
(i.e. it returns no error exactly when all rules are valid), and an
`invalid enable_at` / `invalid disable_at` error correctly identifies the
index and role of an offending rule. -/
theorem validate_characterization (isValid : String → Bool) (cm : CronMatcher) :
    (Validate isValid cm = Except.ok () ↔
      (∀ r ∈ cm.EnableAt, isValid r = true) ∧ (∀ r ∈ cm.DisableAt, isValid r = true)) ∧
    (∀ i r, Validate isValid cm = Except.error (ConfigError.invalidEnableAt i r) →
      cm.EnableAt[i]? = some r ∧ isValid r = false) ∧
    (∀ i r, Validate isValid cm = Except.error (ConfigError.invalidDisableAt i r) →
      cm.DisableAt[i]? = some r ∧ isValid r = false) := by
  refine ⟨validate_ok_iff isValid cm, ?_, ?_⟩
  · intro i r he
    rcases validate_error_spec isValid cm _ he with ⟨j, r2, hj, hget, hval⟩ | ⟨j, r2, hj, hget, hval⟩
    · injection hj with hji hjr
      subst hji
      subst hjr
      exact ⟨hget, hval⟩
    · cases hj
  · intro i r he
    rcases validate_error_spec isValid cm _ he with ⟨j, r2, hj, hget, hval⟩ | ⟨j, r2, hj, hget, hval⟩
    · cases hj
    · injection hj with hji hjr
      subst hji
      subst hjr
      exact ⟨hget, hval⟩

/-- Witness for C8: under the concrete checker rejecting the empty
string, validating the configuration with the empty enable rule produces
exactly the enable-side invalid-format error at index 0, whose contents
the theorem certifies. -/
theorem validate_characterization_witness :
    (([""] : List String))[0]? = some "" ∧ nonEmptyCheck "" = false :=
  (validate_characterization nonEmptyCheck ⟨[""], ["x"]⟩).2.1 0 "" rfl

/-- C6 counterexample: at the spec's own example input — the single pair
with an empty start rule and end rule "daily at 09:00" — the
construction-time checks of `Provision` pass: no dedicated missing-rule
rejection exists anywhere in the configuration path. -/
theorem provision_accepts_empty_rule :
    Provision ⟨[""], ["daily at 09:00"]⟩ = Except.ok () := rfl

/-- C6 (amended): an empty rule string is not rejected by a dedicated
missing-rule check; `Provision` accepts the pair ("", "daily at 09:00"),
and the rejection happens only in `Validate` through the general
syntax-validity check — provided the checker rejects the empty string —
as the invalid-format error naming pair index 0 and the enable role. -/
theorem empty_rule_rejected_as_invalid_syntax (isValid : String → Bool)
    (h : isValid "" = false) :
    Provision ⟨[""], ["daily at 09:00"]⟩ = Except.ok () ∧
    Validate isValid ⟨[""], ["daily at 09:00"]⟩
      = Except.error (ConfigError.invalidEnableAt 0 "") := by
  refine ⟨rfl, ?_⟩
  simp [Validate, validateFrom, h]

/-- Witness for C6 (amended) with the concrete empty-string-rejecting
checker. -/
theorem empty_rule_rejected_as_invalid_syntax_witness :
    nonEmptyCheck "" = false ∧
    (Provision ⟨[""], ["daily at 09:00"]⟩ = Except.ok () ∧
     Validate nonEmptyCheck ⟨[""], ["daily at 09:00"]⟩
       = Except.error (ConfigError.invalidEnableAt 0 "")) :=
  ⟨rfl, empty_rule_rejected_as_invalid_syntax nonEmptyCheck rfl⟩

/-- C10: a successful `UnmarshalCaddyfile` run consumes only blocks of
exactly two arguments, appends exactly one entry per block to each slice,
and therefore preserves the equal-cardinality invariant — Caddyfile-parsed
configuration can never trigger the cardinality-mismatch error. -/
theorem unmarshal_preserves_cardinality (cm cm2 : CronMatcher) (blocks : List (List String))
    (hlen : cm.EnableAt.length = cm.DisableAt.length)
    (h : UnmarshalCaddyfile cm blocks = Except.ok cm2) :
    cm2.EnableAt.length = cm2.DisableAt.length ∧
    (∀ b ∈ blocks, b.length = 2) ∧
    cm2.EnableAt.length = cm.EnableAt.length + blocks.length := by
  induction blocks generalizing cm with
  | nil =>
    simp only [UnmarshalCaddyfile] at h
    injection h with h
    subst h
    simpa using hlen
  | cons args rest ih =>
    rcases args with _ | ⟨x, args⟩
    · simp [UnmarshalCaddyfile] at h
    · rcases args with _ | ⟨y, args⟩
      · simp [UnmarshalCaddyfile] at h
      · rcases args with _ | ⟨z, args⟩
        · simp only [UnmarshalCaddyfile] at h
          obtain ⟨g1, g2, g3⟩ := ih ⟨cm.EnableAt ++ [x], cm.DisableAt ++ [y]⟩ (by simp [hlen]) h
          refine ⟨g1, ?_, ?_⟩
          · intro b hb
            rcases List.mem_cons.mp hb with hb | hb
            · subst hb
              rfl
            · exact g2 b hb
          · simp only [List.length_append, List.length_singleton] at g3
            simp only [List.length_cons]
            omega
        · simp [UnmarshalCaddyfile] at h

/-- Witness for C10: parsing one two-argument block into the empty
configuration yields equal one-element slices. -/
theorem unmarshal_preserves_cardinality_witness :
    (⟨["a"], ["b"]⟩ : CronMatcher).EnableAt.length
        = (⟨["a"], ["b"]⟩ : CronMatcher).DisableAt.length ∧
    (["a", "b"] : List String).length = 2 ∧
    (⟨["a"], ["b"]⟩ : CronMatcher).EnableAt.length
        = (⟨[], []⟩ : CronMatcher).EnableAt.length + [["a", "b"]].length :=
  ⟨(unmarshal_preserves_cardinality ⟨[], []⟩ ⟨["a"], ["b"]⟩ [["a", "b"]] rfl rfl).1,
   (unmarshal_preserves_cardinality ⟨[], []⟩ ⟨["a"], ["b"]⟩ [["a", "b"]] rfl rfl).2.1
     ["a", "b"] (by simp),
   (unmarshal_preserves_cardinality ⟨[], []⟩ ⟨["a"], ["b"]⟩ [["a", "b"]] rfl rfl).2.2⟩

end CaddyCron
